import Mathlib

/-!
Verification of the usage/budget accounting engine of the VBot repository
(src/bot/usage_tracker.py and the budget-gate part of src/bot/telegram_bot.py),
as a shallow embedding in Lean 4.

Modelling conventions:
* Python floats that hold money amounts are modelled as exact rationals; the
  rounding applied by Python's built-in round (round half to even on the exact
  value) is modelled by pyRound below.
* Python dicts are modelled as association lists with Python dict semantics:
  lookup finds the first matching key, updating an existing key keeps its
  position, inserting a new key appends it at the end.
* Calendar dates are a (year, month, day) triple; date.today() becomes an
  explicit parameter named today.  str(date) / date.fromisoformat are modelled
  by dateToIso / isoToDate further below.
* Methods that mutate self.usage and write the user file become functions from
  the ledger state to (new state, list of durable writes); methods that can
  raise return Except.
-/

attribute [local semireducible] Rat.mul Rat.add Rat.sub Rat.inv Rat.ofScientific

namespace VBot

/-- A calendar date as Python's datetime.date: year, month, day. -/
structure Date where
  year : ℕ
  month : ℕ
  day : ℕ
deriving DecidableEq, Repr

/-- Round half to even to an integer, as Python's built-in round on exact values.
The floor is computed as Int.fdiv num den so that everything evaluates. -/
def rndHalfEven (q : ℚ) : ℤ :=
  let f : ℤ := q.num.fdiv (q.den : ℤ)
  let r : ℚ := q - (f : ℚ)
  if r < 1/2 then f
  else if 1/2 < r then f + 1
  else if f % 2 = 0 then f else f + 1

/-- Python round(q, n): round half to even at n decimal digits. -/
def pyRound (q : ℚ) (n : ℕ) : ℚ :=
  ((rndHalfEven (q * 10 ^ n) : ℚ)) / 10 ^ n

/-- Python dict lookup: first value stored under the key, if any. -/
def alGet {α β : Type} [DecidableEq α] : List (α × β) → α → Option β
  | [], _ => none
  | (k, v) :: t, a => if k = a then some v else alGet t a

/-- Python dict store d[k] = v: overwrite in place if the key exists, else append. -/
def alSet {α β : Type} [DecidableEq α] : List (α × β) → α → β → List (α × β)
  | [], a, b => [(a, b)]
  | (k, v) :: t, a, b => if k = a then (k, b) :: t else (k, v) :: alSet t a b

/-- The current_cost sub-dictionary of a user's usage record.
all_time is optional: files written by older versions may lack the key
(the code reads it with dict.get and a computed default). -/
structure CurrentCost where
  day : ℚ
  month : ℚ
  all_time : Option ℚ
  last_update : Date
deriving DecidableEq, Repr

/-- The usage_history sub-dictionary: three independent date-indexed series. -/
structure UsageHistory where
  chat_tokens : List (Date × ℤ)
  transcription_seconds : List (Date × ℚ)
  number_images : List (Date × List ℕ)
deriving DecidableEq, Repr

/-- The whole per-user usage record held in UsageTracker.self.usage. -/
structure Usage where
  user_name : String
  current_cost : CurrentCost
  usage_history : UsageHistory
deriving DecidableEq, Repr

/-- Default price per 1000 chat tokens (0.002). -/
def default_tokens_price : ℚ := 2 / 1000

/-- Default per-minute transcription price (0.006). -/
def default_minute_price : ℚ := 6 / 1000

/-- The default image price list "0.016,0.018,0.02" after the parse performed by
initialize_all_time_cost: [float(x) for x in image_prices.split(',')]. -/
def default_image_prices : List ℚ := [16 / 1000, 18 / 1000, 2 / 100]

/-- zip(*history.values()) followed by per-position sum: pointwise sum of the
per-date image-count vectors, truncating to the shortest (Python zip semantics);
empty history gives the empty list. -/
def totalImages : List (List ℕ) → List ℕ
  | [] => []
  | v :: vs => vs.foldl (fun acc w => acc.zipWith (· + ·) w) v

/-- UsageTracker.initialize_all_time_cost: total cost of the full history.
Sums each series over all dates, then prices the three totals with the
function's own price parameters (the callers always pass the defaults).
The comma-string image price list arrives here already parsed to rationals. -/
def init_all_time_cost (u : Usage) (tokens_price : ℚ) (image_prices : List ℚ)
    (minute_price : ℚ) : ℚ :=
  let total_tokens : ℤ := (u.usage_history.chat_tokens.map (fun p => p.2)).sum
  let token_cost := pyRound ((total_tokens : ℚ) * tokens_price / 1000) 6
  let total_images := totalImages (u.usage_history.number_images.map (fun p => p.2))
  let image_cost : ℚ :=
    ((total_images.map (fun n => (n : ℚ))).zipWith (· * ·) image_prices).sum
  let total_transcription_seconds : ℚ := (u.usage_history.transcription_seconds.map (fun p => p.2)).sum
  let transcription_cost := pyRound (total_transcription_seconds * minute_price / 60) 2
  token_cost + transcription_cost + image_cost

/-- self.usage["current_cost"].get("all_time", self.initialize_all_time_cost()):
the stored all_time value, or the full-history total (at default prices) when
the key is absent. -/
def allTimeBase (u : Usage) : ℚ :=
  match u.current_cost.all_time with
  | some a => a
  | none => init_all_time_cost u default_tokens_price default_image_prices default_minute_price

/-- The shared day/month/last_update update of the three add functions
(usage_tracker.py lines 80-89, 141-146, 191-200). -/
def rolloverCost (today : Date) (cost : ℚ) (c : CurrentCost) : CurrentCost :=
  if today = c.last_update then
    { c with day := c.day + cost, month := c.month + cost }
  else
    { c with
      month := if today.month = c.last_update.month then c.month + cost else cost,
      day := cost,
      last_update := today }

/-- UsageTracker.add_chat_tokens: add the rounded token cost to the aggregates,
add the raw token count to today's history entry, write the file.
Returns the new state and the list of durable writes. -/
def add_chat_tokens (today : Date) (tokens : ℤ) (tokens_price : ℚ) (u : Usage) :
    Usage × List Usage :=
  let token_cost := pyRound ((tokens : ℚ) * tokens_price / 1000) 6
  let cc1 : CurrentCost := { u.current_cost with all_time := some (allTimeBase u + token_cost) }
  let cc2 := rolloverCost today token_cost cc1
  let hist := u.usage_history
  let newTokens : ℤ :=
    match alGet hist.chat_tokens today with
    | some prev => prev + tokens
    | none => tokens
  let hist2 := { hist with chat_tokens := alSet hist.chat_tokens today newTokens }
  let u2 : Usage := { u with current_cost := cc2, usage_history := hist2 }
  (u2, [u2])

/-- UsageTracker.add_transcription_seconds: as add_chat_tokens with the
per-minute price and 2-digit rounding. -/
def add_transcription_seconds (today : Date) (seconds : ℚ) (minute_price : ℚ)
    (u : Usage) : Usage × List Usage :=
  let transcription_price := pyRound (seconds * minute_price / 60) 2
  let cc1 : CurrentCost := { u.current_cost with all_time := some (allTimeBase u + transcription_price) }
  let cc2 := rolloverCost today transcription_price cc1
  let hist := u.usage_history
  let newSeconds : ℚ :=
    match alGet hist.transcription_seconds today with
    | some prev => prev + seconds
    | none => seconds
  let hist2 := { hist with transcription_seconds := alSet hist.transcription_seconds today newSeconds }
  let u2 : Usage := { u with current_cost := cc2, usage_history := hist2 }
  (u2, [u2])

/-- The fixed size list ["256x256", "512x512", "1024x1024"] of add_image_request. -/
def imageSizes : List String := ["256x256", "512x512", "1024x1024"]

/-- Errors add_image_request can raise. -/
inductive ImgErr
  | invalidInput
  | indexError
  | typeError
deriving DecidableEq, Repr

/-- UsageTracker.add_image_request, for a caller that passes the image prices as
an already-parsed list of numbers.  sizes.index raises ValueError (invalidInput)
for an unknown size, before any state is read or written; indexing a too-short
price list raises IndexError.  On success: aggregates updated with the looked-up
price, today's 3-slot history vector (created as [0,0,0] if absent) incremented
at the size index, file written. -/
def add_image_request (today : Date) (image_size : String) (image_prices : List ℚ)
    (u : Usage) : Except ImgErr (Usage × List Usage) :=
  match imageSizes.findIdx? (fun s => s = image_size) with
  | none => .error .invalidInput
  | some requested_size =>
    match image_prices[requested_size]? with
    | none => .error .indexError
    | some image_cost =>
      let cc1 : CurrentCost := { u.current_cost with all_time := some (allTimeBase u + image_cost) }
      let cc2 := rolloverCost today image_cost cc1
      let hist := u.usage_history
      let newVec : List ℕ :=
        match alGet hist.number_images today with
        | some prev => prev.set requested_size ((prev.getD requested_size 0) + 1)
        | none => ([0, 0, 0] : List ℕ).set requested_size 1
      let hist2 := { hist with number_images := alSet hist.number_images today newVec }
      let u2 : Usage := { u with current_cost := cc2, usage_history := hist2 }
      .ok (u2, [u2])

/-- UsageTracker.add_image_request exactly as written, with the price table the
string "0.016,0.018,0.02" (its default value): image_cost = image_prices[requested_size]
indexes the STRING, yielding a single character, and the following statement
current_cost["all_time"] = ... + image_cost adds a float and a str, raising
TypeError before any field of the record is mutated and before any write. -/
def add_image_request_strprices (_today : Date) (image_size : String)
    (image_prices : String) (_u : Usage) : Except ImgErr (Usage × List Usage) :=
  match imageSizes.findIdx? (fun s => s = image_size) with
  | none => .error .invalidInput
  | some requested_size =>
    match image_prices.data[requested_size]? with
    | none => .error .indexError
    | some _image_cost_char => .error .typeError

instance {ε α : Type} [DecidableEq ε] [DecidableEq α] : DecidableEq (Except ε α) := fun a b =>
  match a, b with
  | .ok x, .ok y =>
    match decEq x y with
    | isTrue h => isTrue (by rw [h])
    | isFalse h => isFalse (fun hc => h (by cases hc; rfl))
  | .error x, .error y =>
    match decEq x y with
    | isTrue h => isTrue (by rw [h])
    | isFalse h => isFalse (fun hc => h (by cases hc; rfl))
  | .ok _, .error _ => isFalse (fun hc => Except.noConfusion hc)
  | .error _, .ok _ => isFalse (fun hc => Except.noConfusion hc)

/-- The result dictionary of get_current_cost. -/
structure CostRes where
  cost_today : ℚ
  cost_month : ℚ
  cost_all_time : ℚ
deriving DecidableEq, Repr

/-- UsageTracker.get_current_cost, transcribed statement by statement, with the
final state and the list of durable writes made explicit (the method assigns to
no field and opens no file, so they are the input state and the empty list). -/
def get_current_cost (today : Date) (u : Usage) : Usage × List Usage × CostRes :=
  let last_update := u.current_cost.last_update
  let cost_day : ℚ := if today = last_update then u.current_cost.day else 0
  let cost_month : ℚ :=
    if today = last_update then u.current_cost.month
    else if today.month = last_update.month then u.current_cost.month
    else 0
  let cost_all_time := allTimeBase u
  (u, [], ⟨cost_day, cost_month, cost_all_time⟩)

/-- The fresh record built by UsageTracker.__init__ when no user file exists
(usage_tracker.py lines 61-65). -/
def freshUsage (user_name : String) (today : Date) : Usage :=
  { user_name := user_name,
    current_cost := { day := 0, month := 0, all_time := some 0, last_update := today },
    usage_history := { chat_tokens := [], transcription_seconds := [], number_images := [] } }

/-- What UsageTracker.__init__ finds at the user file path: no file, a file that
json.load cannot parse, or a parsed record. -/
inductive LoadedFile
  | absent
  | invalidJson
  | parsed (u : Usage)

/-- Errors the loading path of UsageTracker.__init__ can raise. -/
inductive LoadErr
  | jsonDecodeError
deriving DecidableEq, Repr

/-- The loading logic of UsageTracker.__init__ (usage_tracker.py lines 54-65):
if the file exists it is json.load-ed with NO exception handling, so a file
that is not valid JSON propagates json.JSONDecodeError to the caller; only a
missing file produces the fresh zeroed record. -/
def UsageTracker_load (user_name : String) (today : Date) :
    LoadedFile → Except LoadErr Usage
  | .absent => .ok (freshUsage user_name today)
  | .invalidJson => .error .jsonDecodeError
  | .parsed u => .ok u

/-- One billable event reported to the ledger. -/
inductive UEvent
  | chat (tokens : ℤ)
  | transcription (seconds : ℚ)
  | image (size : String)

/-- The configured price table the bot passes to the tracker. -/
structure PriceTable where
  tokens_price : ℚ
  minute_price : ℚ
  image_prices : List ℚ

/-- The cost the tracker computes for one event (0 for an image size it would
reject; applyEvent rejects that event before using the 0). -/
def eventCost (tbl : PriceTable) : UEvent → ℚ
  | .chat tokens => pyRound ((tokens : ℚ) * tbl.tokens_price / 1000) 6
  | .transcription seconds => pyRound (seconds * tbl.minute_price / 60) 2
  | .image size =>
    match imageSizes.findIdx? (fun s => s = size) with
    | none => 0
    | some i => (tbl.image_prices[i]?).getD 0

/-- Dispatch one event to the corresponding add method of the tracker. -/
def applyEvent (today : Date) (tbl : PriceTable) (u : Usage) :
    UEvent → Except ImgErr (Usage × List Usage)
  | .chat tokens => .ok (add_chat_tokens today tokens tbl.tokens_price u)
  | .transcription seconds => .ok (add_transcription_seconds today seconds tbl.minute_price u)
  | .image size => add_image_request today size tbl.image_prices u

/-- Apply a sequence of events on one day, stopping at the first raised error. -/
def applyEvents (today : Date) (tbl : PriceTable) : List UEvent → Usage → Except ImgErr Usage
  | [], u => .ok u
  | e :: es, u =>
    match applyEvent today tbl u e with
    | .error err => .error err
    | .ok (u2, _) => applyEvents today tbl es u2

/-- Modelled from the spec: the cost of the single day d of the history, derived
exactly the way initialize_all_time_cost derives the full-history cost (sum each
series at date d, then round/price the totals with the same formulas). -/
def specDayHistoryCost (d : Date) (u : Usage) (tokens_price : ℚ)
    (image_prices : List ℚ) (minute_price : ℚ) : ℚ :=
  let dayU : Usage :=
    { u with usage_history :=
      { chat_tokens := u.usage_history.chat_tokens.filter (fun p => p.1 = d),
        transcription_seconds := u.usage_history.transcription_seconds.filter (fun p => p.1 = d),
        number_images := u.usage_history.number_images.filter (fun p => p.1 = d) } }
  init_all_time_cost dayU tokens_price image_prices minute_price

/-- A Python float value as used by the budget gate: either float('inf')
(admins, wildcard budget lists) or a finite amount. -/
inductive Money
  | inf
  | fin (q : ℚ)
deriving DecidableEq, Repr

/-- Subtraction budget - cost on such values (inf - q = inf). -/
def Money.subCost : Money → ℚ → Money
  | .inf, _ => .inf
  | .fin b, c => .fin (b - c)

/-- The comparison remaining_budget > 0 (float('inf') > 0 is true). -/
def Money.isPos : Money → Bool
  | .inf => true
  | .fin q => decide (0 < q)

/-- The three values config['budget_period'] can take. -/
inductive BudgetPeriod
  | daily
  | monthly
  | all_time
deriving DecidableEq, Repr

/-- ChatGPTTelegramBot.budget_cost_map: which component of get_current_cost the
configured budget period selects. -/
def budget_cost_map (period : BudgetPeriod) (r : CostRes) : ℚ :=
  match period with
  | .daily => r.cost_today
  | .monthly => r.cost_month
  | .all_time => r.cost_all_time

/-- The slice of the bot configuration the budget gate reads.  The raw
comma-separated config strings arrive here already split and, for the budgets,
parsed to numbers; the wildcard flags record whether the raw string was "*",
and admin_user_ids = none records the "-" (no admin) configuration. -/
structure BotConfig where
  admin_user_ids : Option (List String)
  allowed_wildcard : Bool
  allowed_user_ids : List String
  budgets_wildcard : Bool
  user_budgets : List ℚ
  budget_period : BudgetPeriod
  guest_budget : ℚ

/-- ChatGPTTelegramBot.is_admin. -/
def is_admin (cfg : BotConfig) (uid : String) : Bool :=
  match cfg.admin_user_ids with
  | none => false
  | some ids => ids.contains uid

/-- ChatGPTTelegramBot.get_user_budget: float('inf') for admins and wildcard
budget lists, the first budget when everyone is allowed, the budget at the
user's position in the allow-list (0.0 with a warning when the budget list is
shorter), and None for identities not on the allow-list. -/
def get_user_budget (cfg : BotConfig) (uid : String) : Option Money :=
  if is_admin cfg uid = true ∨ cfg.budgets_wildcard = true then some .inf
  else if cfg.allowed_wildcard = true then some (.fin (cfg.user_budgets.headD 0))
  else
    match cfg.allowed_user_ids.findIdx? (fun s => s = uid) with
    | some user_index =>
      if cfg.user_budgets.length ≤ user_index then some (.fin 0)
      else some (.fin ((cfg.user_budgets[user_index]?).getD 0))
    | none => none

/-- ChatGPTTelegramBot.get_remaining_budget: allowance minus the current cost of
the configured period, read from get_current_cost of the user's (or the shared
guest) tracker. -/
def get_remaining_budget (cfg : BotConfig) (uid : String) (userUsage guestUsage : Usage)
    (today : Date) : Money :=
  match get_user_budget cfg uid with
  | some user_budget =>
    Money.subCost user_budget (budget_cost_map cfg.budget_period (get_current_cost today userUsage).2.2)
  | none =>
    Money.fin (cfg.guest_budget - budget_cost_map cfg.budget_period (get_current_cost today guestUsage).2.2)

/-- ChatGPTTelegramBot.is_within_budget: remaining budget strictly positive. -/
def is_within_budget (cfg : BotConfig) (uid : String) (userUsage guestUsage : Usage)
    (today : Date) : Bool :=
  (get_remaining_budget cfg uid userUsage guestUsage today).isPos

/-! JSON layer: the durable record written by json.dump and read back by
json.load, for the serialize/reload round trip.  Dates appear in the record as
the ISO strings produced by str(date). -/

/-- A JSON value. -/
inductive Jv
  | null
  | jbool (b : Bool)
  | num (q : ℚ)
  | str (s : String)
  | arr (elems : List Jv)
  | obj (fields : List (String × Jv))

/-- The character of one decimal digit. -/
def digitChar (d : ℕ) : Char := Char.ofNat (48 + d)

/-- str(date) for the year: four zero-padded decimal digits. -/
def pad4 (n : ℕ) : List Char :=
  [digitChar (n / 1000 % 10), digitChar (n / 100 % 10), digitChar (n / 10 % 10), digitChar (n % 10)]

/-- str(date) for month and day: two zero-padded decimal digits. -/
def pad2 (n : ℕ) : List Char :=
  [digitChar (n / 10 % 10), digitChar (n % 10)]

/-- str(date): the ISO string YYYY-MM-DD. -/
def dateToIso (d : Date) : String :=
  String.mk (pad4 d.year ++ '-' :: pad2 d.month ++ '-' :: pad2 d.day)

/-- Whether a character is a decimal digit. -/
def isDigitCh (c : Char) : Bool := 48 ≤ c.toNat && c.toNat ≤ 57

/-- The numeric value of a digit character. -/
def digVal (c : Char) : ℕ := c.toNat - 48

/-- date.fromisoformat on a YYYY-MM-DD string (None on anything else). -/
def isoToDate (s : String) : Option Date :=
  match s.data with
  | [y1, y2, y3, y4, h1, m1, m2, h2, d1, d2] =>
    if h1 = '-' ∧ h2 = '-' ∧
        (isDigitCh y1 && isDigitCh y2 && isDigitCh y3 && isDigitCh y4 &&
          isDigitCh m1 && isDigitCh m2 && isDigitCh d1 && isDigitCh d2) = true then
      some
        { year := ((digVal y1 * 10 + digVal y2) * 10 + digVal y3) * 10 + digVal y4,
          month := digVal m1 * 10 + digVal m2,
          day := digVal d1 * 10 + digVal d2 }
    else none
  | _ => none

def kUserName : String := "user_name"
def kCurrentCost : String := "current_cost"
def kUsageHistory : String := "usage_history"
def kDay : String := "day"
def kMonth : String := "month"
def kAllTime : String := "all_time"
def kLastUpdate : String := "last_update"
def kChatTokens : String := "chat_tokens"
def kTranscriptionSeconds : String := "transcription_seconds"
def kNumberImages : String := "number_images"

/-- json.dump of the current_cost sub-dictionary; the all_time key is written
only when present in the dictionary. -/
def encodeCC (c : CurrentCost) : Jv :=
  Jv.obj
    ([(kDay, Jv.num c.day), (kMonth, Jv.num c.month)] ++
      (match c.all_time with
       | some a => [(kAllTime, Jv.num a)]
       | none => []) ++
      [(kLastUpdate, Jv.str (dateToIso c.last_update))])

/-- json.dump of the usage_history sub-dictionary. -/
def encodeUH (h : UsageHistory) : Jv :=
  Jv.obj
    [(kChatTokens, Jv.obj (h.chat_tokens.map (fun p => (dateToIso p.1, Jv.num (p.2 : ℚ))))),
     (kTranscriptionSeconds,
       Jv.obj (h.transcription_seconds.map (fun p => (dateToIso p.1, Jv.num p.2)))),
     (kNumberImages,
       Jv.obj (h.number_images.map
         (fun p => (dateToIso p.1, Jv.arr (p.2.map (fun n => Jv.num (Nat.cast n)))))))]

/-- json.dump of the whole per-user record. -/
def encodeUsage (u : Usage) : Jv :=
  Jv.obj
    [(kUserName, Jv.str u.user_name),
     (kCurrentCost, encodeCC u.current_cost),
     (kUsageHistory, encodeUH u.usage_history)]

/-- Read back a JSON number (Python float). -/
def decodeNum : Jv → Option ℚ
  | .num q => some q
  | _ => none

/-- Read back a JSON integer. -/
def decodeInt : Jv → Option ℤ
  | .num q => if q.den = 1 then some q.num else none
  | _ => none

/-- Read back a JSON non-negative integer. -/
def decodeNat : Jv → Option ℕ
  | .num q => if q.den = 1 ∧ 0 ≤ q.num then some q.num.toNat else none
  | _ => none

/-- Read back a JSON string. -/
def decodeStr : Jv → Option String
  | .str s => some s
  | _ => none

/-- Read back the entries of one date-indexed series. -/
def decodeEntries {β : Type} (decVal : Jv → Option β) :
    List (String × Jv) → Option (List (Date × β))
  | [] => some []
  | (k, v) :: t => do
    let d ← isoToDate k
    let b ← decVal v
    let rest ← decodeEntries decVal t
    pure ((d, b) :: rest)

/-- Read back one date-indexed series. -/
def decodeSeries {β : Type} (decVal : Jv → Option β) : Jv → Option (List (Date × β))
  | .obj fields => decodeEntries decVal fields
  | _ => none

/-- Read back a JSON array of non-negative integers. -/
def decodeNatList : List Jv → Option (List ℕ)
  | [] => some []
  | j :: t => do
    let n ← decodeNat j
    let rest ← decodeNatList t
    pure (n :: rest)

/-- Read back the current_cost sub-dictionary. -/
def decodeCC : Jv → Option CurrentCost
  | .obj fields => do
    let day ← (alGet fields kDay).bind decodeNum
    let month ← (alGet fields kMonth).bind decodeNum
    let lu ← (alGet fields kLastUpdate).bind decodeStr
    let last_update ← isoToDate lu
    match alGet fields kAllTime with
    | none => pure { day := day, month := month, all_time := none, last_update := last_update }
    | some v => do
      let a ← decodeNum v
      pure { day := day, month := month, all_time := some a, last_update := last_update }
  | _ => none

/-- Read back the usage_history sub-dictionary. -/
def decodeUH : Jv → Option UsageHistory
  | .obj fields => do
    let ct ← (alGet fields kChatTokens).bind (decodeSeries decodeInt)
    let ts ← (alGet fields kTranscriptionSeconds).bind (decodeSeries decodeNum)
    let ni ← (alGet fields kNumberImages).bind
      (decodeSeries (fun j =>
        match j with
        | .arr elems => decodeNatList elems
        | _ => none))
    pure { chat_tokens := ct, transcription_seconds := ts, number_images := ni }
  | _ => none

/-- Read back the whole per-user record. -/
def decodeUsage : Jv → Option Usage
  | .obj fields => do
    let un ← (alGet fields kUserName).bind decodeStr
    let cc ← (alGet fields kCurrentCost).bind decodeCC
    let uh ← (alGet fields kUsageHistory).bind decodeUH
    pure { user_name := un, current_cost := cc, usage_history := uh }
  | _ => none

/-- Dates Python's datetime.date can hold print with 4-2-2 digits. -/
def ValidDate (d : Date) : Prop :=
  d.year < 10000 ∧ d.month < 100 ∧ d.day < 100

instance : DecidablePred ValidDate := fun d => by
  unfold ValidDate; infer_instance

/-- All dates stored in a ledger are representable. -/
def ValidUsage (u : Usage) : Prop :=
  ValidDate u.current_cost.last_update ∧
    (∀ p ∈ u.usage_history.chat_tokens, ValidDate p.1) ∧
    (∀ p ∈ u.usage_history.transcription_seconds, ValidDate p.1) ∧
    (∀ p ∈ u.usage_history.number_images, ValidDate p.1)

instance : DecidablePred ValidUsage := fun u => by
  unfold ValidUsage; infer_instance

/-! Concrete scenarios used to evaluate the model at specific inputs. -/

def cxName : String := "u"

def cxDate : Date := ⟨2023, 3, 14⟩

def cxFresh : Usage := freshUsage cxName cxDate

/-- The ledger after one 30-second transcription on 2023-03-14 at default prices. -/
def cxAfterOne : Usage := (add_transcription_seconds cxDate 30 default_minute_price cxFresh).1

/-- The ledger after two 30-second transcriptions on 2023-03-14 at default prices. -/
def cxAfterTwo : Usage := (add_transcription_seconds cxDate 30 default_minute_price cxAfterOne).1

def defaultTable : PriceTable :=
  { tokens_price := default_tokens_price,
    minute_price := default_minute_price,
    image_prices := default_image_prices }

def cxEvents : List UEvent := [UEvent.chat 1000, UEvent.transcription 30]

def cxSeqOut : Usage := ((applyEvents cxDate defaultTable cxEvents cxFresh).toOption).getD cxFresh

def c2Last : Date := ⟨2023, 3, 15⟩

def c2Today : Date := ⟨2024, 3, 15⟩

/-- A ledger last updated 2023-03-15 carrying day and month totals of 1.0. -/
def c2Usage : Usage :=
  { user_name := cxName,
    current_cost := { day := 1, month := 1, all_time := some 1, last_update := c2Last },
    usage_history := { chat_tokens := [], transcription_seconds := [], number_images := [] } }

def s512 : String := "512x512"

def defaultPricesStr : String := "0.016,0.018,0.02"

def c4BadSize : String := "640x640"

/-- The ledger a fresh tracker reaches after a 512x512 image request priced
with the parsed default price list. -/
def c3Out : Usage :=
  ((add_image_request cxDate s512 default_image_prices cxFresh).toOption.map
    (fun p => p.1)).getD cxFresh

def c6Today : Date := ⟨2023, 3, 15⟩

/-- A legacy ledger whose record lacks the all_time key. -/
def c7NoAllTime : Usage :=
  { user_name := cxName,
    current_cost := { day := 0, month := 0, all_time := none, last_update := cxDate },
    usage_history :=
      { chat_tokens := [(⟨2023, 3, 13⟩, 500)],
        transcription_seconds := [],
        number_images := [] } }

def c8Uid : String := "42"

def c8Cfg : BotConfig :=
  { admin_user_ids := some ["1"],
    allowed_wildcard := false,
    allowed_user_ids := [c8Uid],
    budgets_wildcard := false,
    user_budgets := [5],
    budget_period := .daily,
    guest_budget := 0 }

/-- A ledger of user 42 whose cost today is exactly 5.00. -/
def c8U5 : Usage :=
  { user_name := c8Uid,
    current_cost := { day := 5, month := 5, all_time := some 5, last_update := cxDate },
    usage_history := { chat_tokens := [], transcription_seconds := [], number_images := [] } }

/-- A ledger of user 42 whose cost today is exactly 4.99. -/
def c8U499 : Usage :=
  { user_name := c8Uid,
    current_cost :=
      { day := mkRat 499 100, month := mkRat 499 100, all_time := some (mkRat 499 100),
        last_update := cxDate },
    usage_history := { chat_tokens := [], transcription_seconds := [], number_images := [] } }

def c8Guest : Usage := freshUsage cxName cxDate

/-- The record of the docstring example of usage_tracker.py, with entries in all
three histories. -/
def c9u : Usage :=
  { user_name := cxName,
    current_cost :=
      { day := mkRat 45 100, month := mkRat 323 100, all_time := some (mkRat 323 100),
        last_update := cxDate },
    usage_history :=
      { chat_tokens := [(⟨2023, 3, 13⟩, 520), (cxDate, 1532)],
        transcription_seconds := [(⟨2023, 3, 13⟩, 125)],
        number_images := [(⟨2023, 3, 12⟩, [0, 2, 3]), (cxDate, [0, 1, 2])] } }

end VBot

namespace VBot

theorem digitChar_toNat (d : ℕ) (h : d < 10) : (digitChar d).toNat = 48 + d := by
  interval_cases d <;> decide

theorem isDigitCh_digitChar (d : ℕ) (h : d < 10) : isDigitCh (digitChar d) = true := by
  interval_cases d <;> decide

theorem digVal_digitChar (d : ℕ) (h : d < 10) : digVal (digitChar d) = d := by
  interval_cases d <;> decide

/-- str(date) followed by date.fromisoformat returns the same date. -/
theorem isoToDate_dateToIso (d : Date) (h : ValidDate d) : isoToDate (dateToIso d) = some d := by
  obtain ⟨y, m, dd⟩ := d
  obtain ⟨hy, hm, hd⟩ := h
  have hy' : y < 10000 := hy
  have hm' : m < 100 := hm
  have hd' : dd < 100 := hd
  simp only [dateToIso, pad4, pad2, List.cons_append, List.nil_append, isoToDate]
  have h10 : ∀ n : ℕ, n % 10 < 10 := fun n => Nat.mod_lt _ (by norm_num)
  rw [if_pos]
  · simp only [digVal_digitChar _ (h10 _), Option.some.injEq, Date.mk.injEq]
    refine ⟨?_, ?_, ?_⟩ <;> omega
  · simp [isDigitCh_digitChar _ (h10 _)]

/-- Decoding a date-indexed series encoded entry by entry recovers the series. -/
theorem decodeSeries_encode {β : Type} (decVal : Jv → Option β) (encVal : β → Jv)
    (l : List (Date × β)) (hdate : ∀ p ∈ l, ValidDate p.1)
    (hval : ∀ b, decVal (encVal b) = some b) :
    decodeSeries decVal (Jv.obj (l.map (fun p => (dateToIso p.1, encVal p.2)))) = some l := by
  induction l with
  | nil => simp [decodeSeries, decodeEntries]
  | cons p t ih =>
    have hd := hdate p (List.mem_cons_self p t)
    have ht : ∀ q ∈ t, ValidDate q.1 := fun q hq => hdate q (List.mem_cons_of_mem p hq)
    have ihh := ih ht
    simp only [decodeSeries, List.map_cons, decodeEntries] at ihh ⊢
    simp [isoToDate_dateToIso p.1 hd, hval, ihh]

theorem decodeInt_encode (z : ℤ) : decodeInt (Jv.num (z : ℚ)) = some z := by
  simp [decodeInt]

theorem decodeNat_encode (n : ℕ) : decodeNat (Jv.num (n : ℚ)) = some n := by
  simp [decodeNat]

theorem decodeNatVec_encode (v : List ℕ) :
    decodeNatList (v.map (fun n => Jv.num (Nat.cast n))) = some v := by
  induction v with
  | nil => simp [decodeNatList]
  | cons n t ih => simp [decodeNatList, decodeNat_encode, ih]

/-- Round trip for the current_cost sub-dictionary. -/
theorem decodeCC_encodeCC (c : CurrentCost) (h : ValidDate c.last_update) :
    decodeCC (encodeCC c) = some c := by
  obtain ⟨dv, mv, av, luv⟩ := c
  have hlu : ValidDate luv := h
  cases av with
  | none =>
    simp [encodeCC, decodeCC, alGet, kDay, kMonth, kAllTime, kLastUpdate,
      isoToDate_dateToIso _ hlu, decodeNum, decodeStr]
  | some a =>
    simp [encodeCC, decodeCC, alGet, kDay, kMonth, kAllTime, kLastUpdate,
      isoToDate_dateToIso _ hlu, decodeNum, decodeStr]

/-- Round trip for the usage_history sub-dictionary. -/
theorem decodeUH_encodeUH (h : UsageHistory)
    (h1 : ∀ p ∈ h.chat_tokens, ValidDate p.1)
    (h2 : ∀ p ∈ h.transcription_seconds, ValidDate p.1)
    (h3 : ∀ p ∈ h.number_images, ValidDate p.1) :
    decodeUH (encodeUH h) = some h := by
  obtain ⟨ct, ts, ni⟩ := h
  have e1 := decodeSeries_encode decodeInt (fun z => Jv.num (Int.cast z)) ct h1
    (fun z => decodeInt_encode z)
  have e2 := decodeSeries_encode decodeNum (fun q => Jv.num q) ts h2 (fun q => rfl)
  have e3 := decodeSeries_encode
    (fun j => match j with | Jv.arr elems => decodeNatList elems | _ => none)
    (fun v => Jv.arr (v.map (fun n => Jv.num (Nat.cast n)))) ni h3
    (fun v => decodeNatVec_encode v)
  simp [encodeUH, decodeUH, alGet, kChatTokens, kTranscriptionSeconds, kNumberImages,
    e1, e2, e3]

/-- Round trip for the whole record. -/
theorem decodeUsage_encodeUsage (u : Usage) (h : ValidUsage u) :
    decodeUsage (encodeUsage u) = some u := by
  obtain ⟨un, cc, uh⟩ := u
  obtain ⟨hcc, h1, h2, h3⟩ := h
  simp [encodeUsage, decodeUsage, alGet, kUserName, kCurrentCost, kUsageHistory,
    decodeStr, decodeCC_encodeCC cc hcc, decodeUH_encodeUH uh h1 h2 h3]

/-- The current cost of the state any of the three add methods produces, for
all three event kinds at once: the rollover update applied after the all_time
increment. -/
theorem applyEvent_ok_cc (today : Date) (tbl : PriceTable) (u u2 : Usage) (w : List Usage)
    (e : UEvent) (hok : applyEvent today tbl u e = .ok (u2, w)) :
    u2.current_cost =
      rolloverCost today (eventCost tbl e)
        { u.current_cost with all_time := some (allTimeBase u + eventCost tbl e) } := by
  cases e with
  | chat tokens =>
    have h : add_chat_tokens today tokens tbl.tokens_price u = (u2, w) := by
      simpa [applyEvent] using hok
    have h2 : u2 = (add_chat_tokens today tokens tbl.tokens_price u).1 := by rw [h]
    subst h2
    rfl
  | transcription seconds =>
    have h : add_transcription_seconds today seconds tbl.minute_price u = (u2, w) := by
      simpa [applyEvent] using hok
    have h2 : u2 = (add_transcription_seconds today seconds tbl.minute_price u).1 := by rw [h]
    subst h2
    rfl
  | image size =>
    cases hfi : imageSizes.findIdx? (fun s => s = size) with
    | none => simp [applyEvent, add_image_request, hfi] at hok
    | some i =>
      cases hp : tbl.image_prices[i]? with
      | none => simp [applyEvent, add_image_request, hfi, hp] at hok
      | some cost =>
        simp only [applyEvent, add_image_request, hfi, hp, Except.ok.injEq, Prod.mk.injEq] at hok
        have h2 : u2.current_cost =
            rolloverCost today cost
              { u.current_cost with all_time := some (allTimeBase u + cost) } := by
          rw [← hok.1]
        rw [h2]
        simp [eventCost, hfi, hp]

/-- Same-day step: day and month grow by the event cost and the date stays. -/
theorem applyEvent_ok_day (today : Date) (tbl : PriceTable) (u u2 : Usage) (w : List Usage)
    (e : UEvent) (hlu : u.current_cost.last_update = today)
    (hok : applyEvent today tbl u e = .ok (u2, w)) :
    u2.current_cost.day = u.current_cost.day + eventCost tbl e ∧
      u2.current_cost.month = u.current_cost.month + eventCost tbl e ∧
      u2.current_cost.last_update = today := by
  rw [applyEvent_ok_cc today tbl u u2 w e hok]
  simp [rolloverCost, hlu]

/-- Any-day step: all_time grows by the event cost. -/
theorem applyEvent_ok_allTime (today : Date) (tbl : PriceTable) (u u2 : Usage) (w : List Usage)
    (e : UEvent) (a : ℚ) (ha : u.current_cost.all_time = some a)
    (hok : applyEvent today tbl u e = .ok (u2, w)) :
    u2.current_cost.all_time = some (a + eventCost tbl e) := by
  rw [applyEvent_ok_cc today tbl u u2 w e hok]
  unfold rolloverCost
  split <;> simp [allTimeBase, ha]

/-- Same-day sequences: day accumulates the per-event costs on top of the
starting value, and the date stays today. -/
theorem applyEvents_day (today : Date) (tbl : PriceTable) (es : List UEvent) (u u' : Usage)
    (hlu : u.current_cost.last_update = today)
    (hok : applyEvents today tbl es u = .ok u') :
    u'.current_cost.day = u.current_cost.day + (es.map (eventCost tbl)).sum ∧
      u'.current_cost.last_update = today := by
  induction es generalizing u with
  | nil =>
    have h : u = u' := by simpa [applyEvents] using hok
    subst h
    simp [hlu]
  | cons e t ih =>
    cases happ : applyEvent today tbl u e with
    | error err => simp [applyEvents, happ] at hok
    | ok p =>
      obtain ⟨u2, w⟩ := p
      have hok2 : applyEvents today tbl t u2 = .ok u' := by
        simpa [applyEvents, happ] using hok
      have hstep := applyEvent_ok_day today tbl u u2 w e hlu happ
      have hrec := ih u2 hstep.2.2 hok2
      refine ⟨?_, hrec.2⟩
      rw [hrec.1, hstep.1]
      simp [add_assoc]

/-- Any sequence: all_time accumulates the per-event costs. -/
theorem applyEvents_allTime (today : Date) (tbl : PriceTable) (es : List UEvent)
    (u u' : Usage) (a : ℚ) (ha : u.current_cost.all_time = some a)
    (hok : applyEvents today tbl es u = .ok u') :
    u'.current_cost.all_time = some (a + (es.map (eventCost tbl)).sum) := by
  induction es generalizing u a with
  | nil =>
    have h : u = u' := by simpa [applyEvents] using hok
    subst h
    simp [ha]
  | cons e t ih =>
    cases happ : applyEvent today tbl u e with
    | error err => simp [applyEvents, happ] at hok
    | ok p =>
      obtain ⟨u2, w⟩ := p
      have hok2 : applyEvents today tbl t u2 = .ok u' := by
        simpa [applyEvents, happ] using hok
      have hstep := applyEvent_ok_allTime today tbl u u2 w e a ha happ
      have hrec := ih u2 (a + eventCost tbl e) hstep hok2
      rw [hrec]
      simp [add_assoc]

end VBot

namespace VBot

/-- Claim C1, counterexample: after two same-day 30-second transcription events
at default prices, currentCost.day is 0.00 (each event cost rounds to 0.00 at 2
digits) while the cost re-derived from today's history entries the way
initialize_all_time_cost derives it is 0.01 (60 seconds priced then rounded
once), so the claimed equality between the day cache and the history
re-derivation fails. -/
theorem C1_cache_rederivation_counterexample :
    cxAfterTwo.current_cost.day = 0 ∧
    specDayHistoryCost cxDate cxAfterTwo default_tokens_price default_image_prices
      default_minute_price = mkRat 1 100 ∧
    cxAfterTwo.current_cost.day ≠
      specDayHistoryCost cxDate cxAfterTwo default_tokens_price default_image_prices
        default_minute_price := by
  decide

/-- Claim C1 (amended): after any same-day sequence of events applied with a
fixed price table, currentCost.day equals its starting value plus the sum of the
individual events' computed (per-event rounded) costs; it need not equal the
cost re-derived from today's history entries, because rounding is applied per
event rather than to the summed totals. -/
theorem C1_day_is_sum_of_event_costs (today : Date) (tbl : PriceTable) (es : List UEvent)
    (u u' : Usage) (hlu : u.current_cost.last_update = today)
    (hok : applyEvents today tbl es u = .ok u') :
    u'.current_cost.day = u.current_cost.day + (es.map (eventCost tbl)).sum :=
  (applyEvents_day today tbl es u u' hlu hok).1

/-- Witness for C1: a fresh ledger, one 1000-token chat event and one 30-second
transcription event on the ledger's date. -/
theorem C1_day_is_sum_of_event_costs_witness :
    cxSeqOut.current_cost.day =
      cxFresh.current_cost.day + (cxEvents.map (eventCost defaultTable)).sum :=
  C1_day_is_sum_of_event_costs cxDate defaultTable cxEvents cxFresh cxSeqOut
    (by decide) (by decide)

/-- Claim C2: the code compares only the month numbers (today.month ==
last_update.month), not the (year, month) pair.  For a ledger last updated
2023-03-15 receiving a 1000-token event on 2024-03-15, the same-month branch is
taken: month becomes 1.0 + 0.002 instead of resetting to 0.002, and the read
path get_current_cost likewise reports the cached month total 1.0 across the
year boundary. -/
theorem C2_month_number_comparison_ignores_year :
    (add_chat_tokens c2Today 1000 default_tokens_price c2Usage).1.current_cost.month =
      1 + mkRat 2 1000 ∧
    (add_chat_tokens c2Today 1000 default_tokens_price c2Usage).1.current_cost.month ≠
      mkRat 2 1000 ∧
    (get_current_cost c2Today c2Usage).2.2.cost_month = 1 := by
  decide

/-- Claim C3: add_image_request called for "512x512" with its default price
table, the string "0.016,0.018,0.02", indexes the string itself: character 1 is
the period, not the number 0.018, and the following float + str addition raises
TypeError before any mutation; with the price table parsed to numbers (as
initialize_all_time_cost parses the same default string) the cost is exactly
0.018 and today's history vector becomes [0, 1, 0]. -/
theorem C3_image_price_string_indexing :
    add_image_request_strprices cxDate s512 defaultPricesStr cxFresh = .error .typeError ∧
    defaultPricesStr.data[1]? = some '.' ∧
    (add_image_request cxDate s512 default_image_prices cxFresh).toOption.map
      (fun p => p.1) = some c3Out ∧
    c3Out.current_cost.day = mkRat 18 1000 ∧
    alGet c3Out.usage_history.number_images cxDate = some [0, 1, 0] := by
  decide

/-- Claim C4: for any image size outside the three known tiers,
add_image_request raises from sizes.index before reading prices or touching any
state: the result is the InvalidInput error and no updated ledger and no
durable write is produced, whether the price table is a parsed list or the raw
default string. -/
theorem C4_unknown_size_rejected_before_mutation (today : Date) (u : Usage) (sz : String)
    (prices : List ℚ) (sprices : String) (h : sz ∉ imageSizes) :
    add_image_request today sz prices u = .error .invalidInput ∧
    add_image_request_strprices today sz sprices u = .error .invalidInput := by
  have hfi : imageSizes.findIdx? (fun s => s = sz) = none := by
    rw [List.findIdx?_eq_none_iff]
    intro x hx
    have hx2 : ¬(x = sz) := fun he => h (he ▸ hx)
    simp [hx2]
  constructor
  · rw [add_image_request, hfi]
  · rw [add_image_request_strprices, hfi]

/-- Witness for C4: the size "640x640" is not a known tier and is rejected. -/
theorem C4_unknown_size_rejected_witness :
    add_image_request cxDate c4BadSize default_image_prices cxFresh = .error .invalidInput ∧
    add_image_request_strprices cxDate c4BadSize defaultPricesStr cxFresh =
      .error .invalidInput :=
  C4_unknown_size_rejected_before_mutation cxDate cxFresh c4BadSize default_image_prices
    defaultPricesStr (by decide)

/-- Claim C5, counterexample: a durable record that is not valid JSON is NOT
treated as absent: UsageTracker.__init__ json.loads it with no exception
handling, so the decode error propagates to the caller instead of a fresh
ledger being initialized. -/
theorem C5_malformed_record_raises :
    UsageTracker_load cxName cxDate .invalidJson = .error .jsonDecodeError := rfl

/-- Claim C5 (amended): only a MISSING durable record is treated as absent and
replaced by a fresh ledger with zeroed day/month/all-time aggregates,
lastUpdateDate = today and empty history; a present but malformed (not valid
JSON) record raises the JSON decode error to the caller. -/
theorem C5_missing_record_fresh_ledger (user_name : String) (today : Date) :
    UsageTracker_load user_name today .absent = .ok (freshUsage user_name today) ∧
    (freshUsage user_name today).current_cost =
      { day := 0, month := 0, all_time := some 0, last_update := today } ∧
    (freshUsage user_name today).usage_history =
      { chat_tokens := [], transcription_seconds := [], number_images := [] } ∧
    UsageTracker_load user_name today .invalidJson = .error .jsonDecodeError :=
  ⟨rfl, rfl, rfl, rfl⟩

/-- Claim C6: for an event dated one calendar day after lastUpdateDate within
the same month, each of the three add methods sets month to the prior month
total plus the event's cost, day to exactly the event's cost, and
lastUpdateDate to today. -/
theorem C6_next_day_same_month_rollover (y m dd : ℕ) (u : Usage) (tokens : ℤ) (tp : ℚ)
    (seconds mp : ℚ) (sz : String) (ip : List ℚ) (i : ℕ) (c : ℚ)
    (hlu : u.current_cost.last_update = Date.mk y m dd)
    (hfi : imageSizes.findIdx? (fun s => s = sz) = some i)
    (hp : ip[i]? = some c) :
    ((add_chat_tokens (Date.mk y m (dd + 1)) tokens tp u).1.current_cost.month =
        u.current_cost.month + pyRound ((tokens : ℚ) * tp / 1000) 6 ∧
      (add_chat_tokens (Date.mk y m (dd + 1)) tokens tp u).1.current_cost.day =
        pyRound ((tokens : ℚ) * tp / 1000) 6 ∧
      (add_chat_tokens (Date.mk y m (dd + 1)) tokens tp u).1.current_cost.last_update =
        Date.mk y m (dd + 1)) ∧
    ((add_transcription_seconds (Date.mk y m (dd + 1)) seconds mp u).1.current_cost.month =
        u.current_cost.month + pyRound (seconds * mp / 60) 2 ∧
      (add_transcription_seconds (Date.mk y m (dd + 1)) seconds mp u).1.current_cost.day =
        pyRound (seconds * mp / 60) 2 ∧
      (add_transcription_seconds (Date.mk y m (dd + 1)) seconds mp u).1.current_cost.last_update =
        Date.mk y m (dd + 1)) ∧
    (match add_image_request (Date.mk y m (dd + 1)) sz ip u with
     | .ok (u2, _) =>
       u2.current_cost.month = u.current_cost.month + c ∧
         u2.current_cost.day = c ∧
         u2.current_cost.last_update = Date.mk y m (dd + 1)
     | .error _ => False) := by
  have hne : Date.mk y m (dd + 1) ≠ Date.mk y m dd := by
    simp [Date.mk.injEq]
  refine ⟨?_, ?_, ?_⟩
  · show (rolloverCost (Date.mk y m (dd + 1)) _ _).month = _ ∧
      (rolloverCost (Date.mk y m (dd + 1)) _ _).day = _ ∧
      (rolloverCost (Date.mk y m (dd + 1)) _ _).last_update = _
    simp [rolloverCost, hlu, hne]
  · show (rolloverCost (Date.mk y m (dd + 1)) _ _).month = _ ∧
      (rolloverCost (Date.mk y m (dd + 1)) _ _).day = _ ∧
      (rolloverCost (Date.mk y m (dd + 1)) _ _).last_update = _
    simp [rolloverCost, hlu, hne]
  · simp only [add_image_request, hfi, hp]
    show (rolloverCost (Date.mk y m (dd + 1)) _ _).month = _ ∧
      (rolloverCost (Date.mk y m (dd + 1)) _ _).day = _ ∧
      (rolloverCost (Date.mk y m (dd + 1)) _ _).last_update = _
    simp [rolloverCost, hlu, hne]

/-- Witness for C6: a fresh ledger dated 2023-03-14 receiving chat,
transcription and 512x512-image events on 2023-03-15. -/
theorem C6_next_day_same_month_rollover_witness :
    ((add_chat_tokens c6Today 1000 default_tokens_price cxFresh).1.current_cost.month =
        cxFresh.current_cost.month + pyRound (((1000 : ℤ) : ℚ) * default_tokens_price / 1000) 6 ∧
      (add_chat_tokens c6Today 1000 default_tokens_price cxFresh).1.current_cost.day =
        pyRound (((1000 : ℤ) : ℚ) * default_tokens_price / 1000) 6 ∧
      (add_chat_tokens c6Today 1000 default_tokens_price cxFresh).1.current_cost.last_update =
        c6Today) ∧
    ((add_transcription_seconds c6Today 60 default_minute_price cxFresh).1.current_cost.month =
        cxFresh.current_cost.month + pyRound (60 * default_minute_price / 60) 2 ∧
      (add_transcription_seconds c6Today 60 default_minute_price cxFresh).1.current_cost.day =
        pyRound (60 * default_minute_price / 60) 2 ∧
      (add_transcription_seconds c6Today 60 default_minute_price cxFresh).1.current_cost.last_update =
        c6Today) ∧
    (match add_image_request c6Today s512 default_image_prices cxFresh with
     | .ok (u2, _) =>
       u2.current_cost.month = cxFresh.current_cost.month + mkRat 18 1000 ∧
         u2.current_cost.day = mkRat 18 1000 ∧
         u2.current_cost.last_update = c6Today
     | .error _ => False) :=
  C6_next_day_same_month_rollover 2023 3 14 cxFresh 1000 default_tokens_price 60
    default_minute_price s512 default_image_prices 1 (mkRat 18 1000)
    (by decide) (by decide) (by decide)

/-- Claim C7, counterexample: after two same-day 30-second transcription events
on a fresh ledger, currentCost.allTime is 0.00 (maintained incrementally from
per-event rounded costs) while summing the full history independently with
initialize_all_time_cost gives 0.01, so the claimed equality between allTime
and the full-history sum fails. -/
theorem C7_alltime_rederivation_counterexample :
    cxAfterTwo.current_cost.all_time = some 0 ∧
    init_all_time_cost cxAfterTwo default_tokens_price default_image_prices
      default_minute_price = mkRat 1 100 ∧
    cxAfterTwo.current_cost.all_time ≠
      some (init_all_time_cost cxAfterTwo default_tokens_price default_image_prices
        default_minute_price) := by
  decide

/-- Claim C7 (amended): when the allTime key is absent it is initialized by
summing the entire history as it stood BEFORE the current event's history entry
is added (so the sum excludes the event just received, priced at default
prices) and the event's cost is then added; when present, every event adds its
own rounded cost, so after any event sequence allTime equals its starting value
plus the sum of the per-event costs, and is therefore invariant under
reordering of the events; it need not equal the independently summed
full-history cost, because rounding is applied per event. -/
theorem C7_alltime_incremental_maintenance :
    (∀ (today : Date) (tokens : ℤ) (tp : ℚ) (u : Usage),
      u.current_cost.all_time = none →
      (add_chat_tokens today tokens tp u).1.current_cost.all_time =
        some (init_all_time_cost u default_tokens_price default_image_prices
            default_minute_price + pyRound ((tokens : ℚ) * tp / 1000) 6)) ∧
    (∀ (today : Date) (tbl : PriceTable) (es : List UEvent) (u u' : Usage) (a : ℚ),
      u.current_cost.all_time = some a →
      applyEvents today tbl es u = .ok u' →
      u'.current_cost.all_time = some (a + (es.map (eventCost tbl)).sum)) ∧
    (∀ (today : Date) (tbl : PriceTable) (es1 es2 : List UEvent) (u u1 u2 : Usage) (a : ℚ),
      u.current_cost.all_time = some a → es1.Perm es2 →
      applyEvents today tbl es1 u = .ok u1 → applyEvents today tbl es2 u = .ok u2 →
      u1.current_cost.all_time = u2.current_cost.all_time) := by
  refine ⟨?_, ?_, ?_⟩
  · intro today tokens tp u h
    show (rolloverCost today _ _).all_time = _
    unfold rolloverCost
    split <;> simp [allTimeBase, h]
  · intro today tbl es u u' a ha hok
    exact applyEvents_allTime today tbl es u u' a ha hok
  · intro today tbl es1 es2 u u1 u2 a ha hperm hok1 hok2
    rw [applyEvents_allTime today tbl es1 u u1 a ha hok1,
      applyEvents_allTime today tbl es2 u u2 a ha hok2,
      List.Perm.sum_eq (hperm.map (eventCost tbl))]

/-- Witness for C7: a legacy ledger without the all_time key receiving a chat
event (lazy initialization from the prior history), and a fresh ledger
receiving the two-event sequence (incremental maintenance). -/
theorem C7_alltime_incremental_maintenance_witness :
    (add_chat_tokens cxDate 1000 default_tokens_price c7NoAllTime).1.current_cost.all_time =
      some (init_all_time_cost c7NoAllTime default_tokens_price default_image_prices
          default_minute_price + pyRound (((1000 : ℤ) : ℚ) * default_tokens_price / 1000) 6) ∧
    cxSeqOut.current_cost.all_time = some (0 + (cxEvents.map (eventCost defaultTable)).sum) :=
  ⟨C7_alltime_incremental_maintenance.1 cxDate 1000 default_tokens_price c7NoAllTime
      (by decide),
    C7_alltime_incremental_maintenance.2.1 cxDate defaultTable cxEvents cxFresh cxSeqOut 0
      (by decide) (by decide)⟩

/-- Claim C8: for an allow-listed non-admin identity with a finite allowance at
its allow-list position, get_remaining_budget returns the allowance minus the
cost of the configured period read from get_current_cost, and is_within_budget
is true exactly when that remainder is strictly positive. -/
theorem C8_remaining_budget_gate (cfg : BotConfig) (uid : String) (uu gu : Usage)
    (today : Date) (i : ℕ) (A : ℚ)
    (hadmin : is_admin cfg uid = false)
    (hbw : cfg.budgets_wildcard = false)
    (haw : cfg.allowed_wildcard = false)
    (hidx : cfg.allowed_user_ids.findIdx? (fun s => s = uid) = some i)
    (hlen : i < cfg.user_budgets.length)
    (hA : cfg.user_budgets[i]? = some A) :
    get_remaining_budget cfg uid uu gu today =
      .fin (A - budget_cost_map cfg.budget_period (get_current_cost today uu).2.2) ∧
    (is_within_budget cfg uid uu gu today = true ↔
      0 < A - budget_cost_map cfg.budget_period (get_current_cost today uu).2.2) := by
  have hnl : ¬ cfg.user_budgets.length ≤ i := by omega
  have hub : get_user_budget cfg uid = some (.fin A) := by
    unfold get_user_budget
    simp [hadmin, hbw, haw, hidx, hnl, hA]
  constructor
  · rw [get_remaining_budget, hub]
    rfl
  · rw [is_within_budget, get_remaining_budget, hub]
    show (Money.fin _).isPos = true ↔ _
    simp [Money.isPos, Money.subCost]

/-- Witness for C8: allowance 5.00 with accumulated daily cost 5.00 leaves the
gate closed, and with cost 4.99 leaves it open. -/
theorem C8_remaining_budget_gate_witness :
    is_within_budget c8Cfg c8Uid c8U5 c8Guest cxDate = false ∧
    is_within_budget c8Cfg c8Uid c8U499 c8Guest cxDate = true := by
  have h5 := C8_remaining_budget_gate c8Cfg c8Uid c8U5 c8Guest cxDate 0 5
    (by decide) (by decide) (by decide) (by decide) (by decide) (by decide)
  have h499 := C8_remaining_budget_gate c8Cfg c8Uid c8U499 c8Guest cxDate 0 5
    (by decide) (by decide) (by decide) (by decide) (by decide) (by decide)
  constructor
  · have hnot : ¬(0 : ℚ) < 5 - budget_cost_map c8Cfg.budget_period
        (get_current_cost cxDate c8U5).2.2 := by decide
    cases hb : is_within_budget c8Cfg c8Uid c8U5 c8Guest cxDate with
    | false => rfl
    | true => exact absurd (h5.2.mp hb) hnot
  · exact h499.2.mpr (by decide)

/-- Claim C9: serializing a ledger to its durable JSON record and loading that
record back yields the same ledger, so getCurrentCost and all three
date-indexed history series are preserved by a serialize/reload cycle. -/
theorem C9_serialize_reload_identity (u : Usage) (h : ValidUsage u) :
    decodeUsage (encodeUsage u) = some u ∧
    ∀ v : Usage, decodeUsage (encodeUsage u) = some v →
      (∀ today : Date, get_current_cost today v = get_current_cost today u) ∧
      v.usage_history = u.usage_history := by
  have hrt := decodeUsage_encodeUsage u h
  refine ⟨hrt, fun v hv => ?_⟩
  rw [hrt, Option.some.injEq] at hv
  subst hv
  exact ⟨fun _ => rfl, rfl⟩

/-- Witness for C9: the docstring example record round trips. -/
theorem C9_serialize_reload_identity_witness :
    decodeUsage (encodeUsage c9u) = some c9u ∧
    ∀ v : Usage, decodeUsage (encodeUsage c9u) = some v →
      (∀ today : Date, get_current_cost today v = get_current_cost today c9u) ∧
      v.usage_history = c9u.usage_history :=
  C9_serialize_reload_identity c9u (by decide)

/-- Claim C10: get_current_cost performs no mutation and no durable write: its
final state is its input state (so lastUpdateDate is not advanced on a rolled
over date and a computed all-time sum is not stored back) and its list of
writes is empty. -/
theorem C10_get_current_cost_is_pure (today : Date) (u : Usage) :
    (get_current_cost today u).1 = u ∧ (get_current_cost today u).2.1 = [] :=
  ⟨rfl, rfl⟩

end VBot
